import Mathlib

set_option maxHeartbeats 1000000

/-!
Verification development for the mushroom-hunter nowcast service.

The repository ships the frontend (`frontend/src/App.tsx`) together with the
design documents (`spec.md`, `docs/ingestion.md`) of the backend.  The backend
components (Scoring Engine, Habitat Grid Store, Freshness Tracker, Merge
Engine, Windowed Query Service) are modelled here from the specification text;
the frontend functions are embedded from `App.tsx` directly.  Real numbers of
the design are embedded as rationals, timestamps as integers or rationals.
-/

/-- Modelled from the spec: resolution tag of a grid cell (spec section 3,
HabitatCell), either the coarse baseline grid or the on-demand refined grid. -/
inductive Resolution
  | coarse
  | refined
deriving DecidableEq, Repr

/-- Modelled from the spec: names of the scalar fields of a habitat cell
(spec section 3 HabitatCell and the habitat grid schema in
docs/ingestion.md). -/
inductive FieldName
  | soil_temperature_c
  | precipitation_mm_last_7d
  | soil_moisture_index
  | canopy_density_pct
deriving DecidableEq, Repr

/-- Modelled from the spec: the Provenance Map entry attached to one field of
one grid cell, `{source, observed_at}` (spec section 2 and section 3). -/
structure Provenance where
  source : String
  observed_at : Int
deriving DecidableEq, Repr

/-- Modelled from the spec: a HabitatCell (spec section 3) with an explicit
optional per scalar field (design note in spec section 9), a provenance entry
per scalar field, the host-species-present set, and the derived
`last_observation` timestamp.  The backend implementation is not in the
repository; this record follows the schema of spec section 3 and
docs/ingestion.md. -/
structure HabitatCell where
  cell_id : String
  latitude : ℚ
  longitude : ℚ
  resolution : Resolution
  soil_temperature_c : Option ℚ
  precipitation_mm_last_7d : Option ℚ
  soil_moisture_index : Option ℚ
  canopy_density_pct : Option ℚ
  host_species_present : List String
  prov_soil_temperature_c : Option Provenance
  prov_precipitation_mm_last_7d : Option Provenance
  prov_soil_moisture_index : Option Provenance
  prov_canopy_density_pct : Option Provenance
  last_observation : Option Int
deriving DecidableEq, Repr

/-- Scalar field of a cell, by field name. -/
def HabitatCell.getField (c : HabitatCell) : FieldName → Option ℚ
  | .soil_temperature_c => c.soil_temperature_c
  | .precipitation_mm_last_7d => c.precipitation_mm_last_7d
  | .soil_moisture_index => c.soil_moisture_index
  | .canopy_density_pct => c.canopy_density_pct

/-- Replace one scalar field of a cell. -/
def HabitatCell.setField (c : HabitatCell) : FieldName → ℚ → HabitatCell
  | .soil_temperature_c, v => { c with soil_temperature_c := some v }
  | .precipitation_mm_last_7d, v => { c with precipitation_mm_last_7d := some v }
  | .soil_moisture_index, v => { c with soil_moisture_index := some v }
  | .canopy_density_pct, v => { c with canopy_density_pct := some v }

/-- Provenance entry of a cell for one field name. -/
def HabitatCell.getProv (c : HabitatCell) : FieldName → Option Provenance
  | .soil_temperature_c => c.prov_soil_temperature_c
  | .precipitation_mm_last_7d => c.prov_precipitation_mm_last_7d
  | .soil_moisture_index => c.prov_soil_moisture_index
  | .canopy_density_pct => c.prov_canopy_density_pct

/-- Replace the provenance entry of a cell for one field name. -/
def HabitatCell.setProv (c : HabitatCell) : FieldName → Provenance → HabitatCell
  | .soil_temperature_c, p => { c with prov_soil_temperature_c := some p }
  | .precipitation_mm_last_7d, p => { c with prov_precipitation_mm_last_7d := some p }
  | .soil_moisture_index, p => { c with prov_soil_moisture_index := some p }
  | .canopy_density_pct, p => { c with prov_canopy_density_pct := some p }

/-- The observation timestamps of all provenance entries of a cell. -/
def HabitatCell.provTimes (c : HabitatCell) : List Int :=
  ([c.prov_soil_temperature_c, c.prov_precipitation_mm_last_7d,
    c.prov_soil_moisture_index, c.prov_canopy_density_pct].filterMap id).map
    (fun p => p.observed_at)

/-- Modelled from the spec: a numeric tolerance range `[min,max]` with either
bound optionally open, meaning no constraint on that side (spec section 3,
SpeciesProfile). -/
structure ToleranceRange where
  min : Option ℚ
  max : Option ℚ
deriving DecidableEq, Repr

/-- A value lies within a tolerance range (an open bound is no constraint). -/
def ToleranceRange.contains (r : ToleranceRange) (v : ℚ) : Bool :=
  (match r.min with
   | none => true
   | some lo => decide (lo ≤ v)) &&
  (match r.max with
   | none => true
   | some hi => decide (v ≤ hi))

/-- Modelled from the spec: the kind of one declared scoring component of a
species profile — a tolerance range on a cell scalar field, a host-species
set, or a phenology month set (spec sections 3 and 4.1). -/
inductive ComponentKind
  | tolerance (field : FieldName) (range : ToleranceRange)
  | hostSpecies (hosts : List String)
  | phenology (months : List Nat)
deriving DecidableEq, Repr

/-- Modelled from the spec: one declared component of a species profile with
its weight (spec section 3: every declared component has exactly one
non-negative weight). -/
structure DeclaredComponent where
  name : String
  kind : ComponentKind
  weight : ℚ
deriving DecidableEq, Repr

/-- Modelled from the spec: a SpeciesProfile (spec section 3) as its stable id
and its ordered sequence of declared weighted components. -/
structure SpeciesProfile where
  id : String
  components : List DeclaredComponent
deriving DecidableEq, Repr

/-- Modelled from the spec: a ScoreComponent (spec section 3): name, boolean
passed, human-readable detail, weight copied from the profile. -/
structure ScoreComponent where
  name : String
  passed : Bool
  detail : String
  weight : ℚ
deriving DecidableEq, Repr

/-- Modelled from the spec: evaluation of one declared component against a
cell (spec section 4.1).  A tolerance component passes iff the cell field
value exists and lies within the range (missing field means failed, detail
explains no data); the host-species component passes iff the intersection of
profile host species and the cell host-species-present set is non-empty; the
phenology component passes iff the evaluation month is in the phenology
set of the profile. -/
def evalComponent (month : Nat) (cell : HabitatCell) (c : DeclaredComponent) :
    ScoreComponent :=
  match c.kind with
  | .tolerance f r =>
    match cell.getField f with
    | none => { name := c.name, passed := false, detail := "no data", weight := c.weight }
    | some v =>
      { name := c.name, passed := r.contains v, detail := "range check", weight := c.weight }
  | .hostSpecies hosts =>
    { name := c.name,
      passed := hosts.any (fun h => cell.host_species_present.contains h),
      detail := "host species intersection", weight := c.weight }
  | .phenology months =>
    { name := c.name, passed := months.contains month, detail := "phenology month",
      weight := c.weight }

/-- Sum of all declared weights of a profile (spec section 4.1). -/
def totalWeight (p : SpeciesProfile) : ℚ :=
  (p.components.map (fun c => c.weight)).sum

/-- Sum of the weights of the passed components (spec section 4.1). -/
def passedWeight (month : Nat) (cell : HabitatCell) (p : SpeciesProfile) : ℚ :=
  (p.components.map
    (fun c => if (evalComponent month cell c).passed then c.weight else 0)).sum

/-- Modelled from the spec: the final score (spec section 4.1): sum of weights
of passed components divided by the sum of all declared weights; if the total
weight is zero the score is defined as 0. -/
def score (month : Nat) (cell : HabitatCell) (p : SpeciesProfile) : ℚ :=
  if totalWeight p = 0 then 0 else passedWeight month cell p / totalWeight p

/-- Modelled from the spec: the Scoring Engine contract
`Score(profile, cell) -> (score, components)` (spec section 4.1), with the
evaluation month as the explicit third input of the deterministic
(profile, cell, evaluation month) triple. -/
def Score (p : SpeciesProfile) (cell : HabitatCell) (month : Nat) :
    ℚ × List ScoreComponent :=
  (score month cell p, p.components.map (evalComponent month cell))

/-- Modelled from the spec: the ConfigurationError taxonomy entry (spec
section 7): a species profile with zero total weight, or a reference to an
unknown host species, must fail loudly at load time. -/
inductive ConfigurationError
  | zeroTotalWeight (profile_id : String)
  | unknownHostSpecies (profile_id : String) (species : String)
deriving DecidableEq, Repr

/-- All host-species identifiers referenced by the components of a profile. -/
def hostRefs (p : SpeciesProfile) : List String :=
  p.components.foldr
    (fun c acc =>
      match c.kind with
      | .hostSpecies hosts => hosts ++ acc
      | _ => acc) []

/-- Modelled from the spec: profile load-time validation (spec section 7):
a profile with zero total weight, or referencing a host species outside the
known catalog, is rejected with a ConfigurationError instead of being loaded
silently. -/
def loadProfile (catalog : List String) (p : SpeciesProfile) :
    Except ConfigurationError SpeciesProfile :=
  if totalWeight p = 0 then
    .error (.zeroTotalWeight p.id)
  else
    match (hostRefs p).find? (fun h => !(catalog.contains h)) with
    | some h => .error (.unknownHostSpecies p.id h)
    | none => .ok p

/-- Modelled from the spec: the four freshness states of a data source (spec
section 4.3 and docs/ingestion.md). -/
inductive FreshStatus
  | ok
  | warning
  | stale
  | failed
deriving DecidableEq, Repr

/-- Modelled from the spec: a DataFreshness record (spec section 3): expected
interval, last-ingested timestamp, the explicit failed override flag set by
RecordFailure, and free-text notes.  Durations and timestamps are rationals
in a common time unit. -/
structure SourceRecord where
  expected_interval : ℚ
  last_ingested : ℚ
  failed : Bool
  notes : String
deriving DecidableEq, Repr

/-- Modelled from the spec: the age-derived freshness state (spec section 4.3):
age at most 1.25 times the expected interval is ok, up to 2 times is warning,
beyond that stale. -/
def ageStatus (interval age : ℚ) : FreshStatus :=
  if age ≤ 5 / 4 * interval then .ok
  else if age ≤ 2 * interval then .warning
  else .stale

/-- Modelled from the spec: `StatusOf` (spec section 4.3), evaluated on
demand: the explicit failed flag overrides the age-derived state. -/
def StatusOf (r : SourceRecord) (now : ℚ) : FreshStatus :=
  if r.failed then .failed
  else ageStatus r.expected_interval (now - r.last_ingested)

/-- Modelled from the spec: the per-record effect of `RecordSuccess` (spec
section 4.3): the last-ingested timestamp moves to the success time and the
failed override is cleared. -/
def applySuccess (r : SourceRecord) (ts : ℚ) : SourceRecord :=
  { r with last_ingested := ts, failed := false }

/-- Modelled from the spec: the per-record effect of `RecordFailure` (spec
section 4.3): the failed override is set, with the reason kept in the notes;
the last-ingested timestamp is untouched. -/
def applyFailure (r : SourceRecord) (reason : String) : SourceRecord :=
  { r with failed := true, notes := reason }

/-- Freshness Tracker state: one DataFreshness record per source id. -/
abbrev FreshState : Type := List (String × SourceRecord)

/-- Lookup in an association list keyed by strings. -/
def assocFind : List (String × α) → String → Option α
  | [], _ => none
  | e :: rest, k => if e.1 == k then some e.2 else assocFind rest k

/-- Modelled from the spec: `RecordSuccess(source_id, timestamp)` on the
tracker state (spec sections 3 and 4.3): the record is updated when present
and created on the first successful ingestion, with the configured
expected interval of the source. -/
def recordSuccess (fs : FreshState) (sid : String) (ts interval : ℚ) : FreshState :=
  match assocFind fs sid with
  | some _ => fs.map (fun e => if e.1 == sid then (e.1, applySuccess e.2 ts) else e)
  | none => fs ++ [(sid, { expected_interval := interval, last_ingested := ts,
                           failed := false, notes := "" })]

/-- Modelled from the spec: `RecordFailure(source_id, reason)` on the tracker
state (spec sections 3 and 4.3): an existing record is marked failed; a
record is only created on the first successful ingestion. -/
def recordFailure (fs : FreshState) (sid reason : String) : FreshState :=
  fs.map (fun e => if e.1 == sid then (e.1, applyFailure e.2 reason) else e)

/-- Modelled from the spec: one field update of a Merge Engine reading,
`field → (value, observed_at)` (spec section 4.4). -/
structure FieldUpdate where
  field : FieldName
  value : ℚ
  observed_at : Int
deriving DecidableEq, Repr

/-- Modelled from the spec: one incoming per-source reading handed to
`MergeReading(source_id, cell_id, field_updates, resolution)` (spec
section 4.4). -/
structure Reading where
  source_id : String
  cell_id : String
  field_updates : List FieldUpdate
  resolution : Resolution
deriving DecidableEq, Repr

/-- Modelled from the spec: per-field reconciliation (spec section 4.4):
accept the incoming value and provenance iff the incoming observed_at is
strictly newer than the current provenance timestamp of the cell for that field,
or the field is currently unset; equal timestamps favor the existing
value. -/
def mergeField (src : String) (c : HabitatCell) (u : FieldUpdate) : HabitatCell :=
  match c.getProv u.field with
  | none =>
    (c.setField u.field u.value).setProv u.field
      { source := src, observed_at := u.observed_at }
  | some p =>
    if p.observed_at < u.observed_at then
      (c.setField u.field u.value).setProv u.field
        { source := src, observed_at := u.observed_at }
    else c

/-- Modelled from the spec: after field-level reconciliation the last_observation field of the cell is recomputed as the max timestamp across all its
provenance entries (spec section 4.4). -/
def recomputeLastObservation (c : HabitatCell) : HabitatCell :=
  { c with last_observation := c.provTimes.max? }

/-- Modelled from the spec: field-level reconciliation of a whole reading
into one cell (spec section 4.4): each field update applied independently,
untouched fields left alone, then last_observation recomputed. -/
def reconcile (src : String) (c : HabitatCell) (updates : List FieldUpdate) :
    HabitatCell :=
  recomputeLastObservation (updates.foldl (mergeField src) c)

/-- Grid Store state: a keyed map from cell_id to HabitatCell (spec
section 4.2: the store is a keyed map plus a spatial predicate). -/
abbrev GridState : Type := List (String × HabitatCell)

/-- `Upsert` of the Grid Store (spec section 4.2): replaces the prior record
for that cell_id, or inserts a new one. -/
def assocUpsert (l : List (String × α)) (k : String) (v : α) :
    List (String × α) :=
  match assocFind l k with
  | some _ => l.map (fun e => if e.1 == k then (e.1, v) else e)
  | none => l ++ [(k, v)]

/-- Modelled from the spec: the outcome of a merge (spec section 4.4):
accepted, or rejected atomically on structural validation failure. -/
inductive MergeOutcome
  | merged
  | rejected (reason : String)
deriving DecidableEq, Repr

/-- Modelled from the spec: `MergeReading` (spec section 4.4): validate the
reading against the stored cell (a reading for an unknown cell or with a
mismatched resolution is rejected atomically; the spec names no concrete
physical-range bounds, so that check is not modelled), reconcile field by
field, pass the reconciled cell to Upsert, and on success call
`RecordSuccess(source_id, now)` — on rejection `RecordFailure`.  `interval`
is the configured expected interval of the source, used if its freshness record
is created by this first success. -/
def MergeReading (gs : GridState) (fs : FreshState) (r : Reading)
    (now interval : ℚ) : GridState × FreshState × MergeOutcome :=
  match assocFind gs r.cell_id with
  | none => (gs, recordFailure fs r.source_id ("unknown cell"),
             .rejected ("unknown cell"))
  | some cell =>
    if cell.resolution = r.resolution then
      let c := reconcile r.source_id cell r.field_updates
      (assocUpsert gs r.cell_id c, recordSuccess fs r.source_id now interval,
       .merged)
    else
      (gs, recordFailure fs r.source_id ("mismatched resolution"),
       .rejected ("mismatched resolution"))

/-- Modelled from the spec: a bounding box for windowed queries (spec
section 4.2), inclusive on all four bounds. -/
structure BBox where
  minLat : ℚ
  maxLat : ℚ
  minLon : ℚ
  maxLon : ℚ
deriving DecidableEq, Repr

/-- The centroid of a cell lies within the inclusive bounds of the box. -/
def inBox (b : BBox) (c : HabitatCell) : Bool :=
  decide (b.minLat ≤ c.latitude) && decide (c.latitude ≤ b.maxLat) &&
  decide (b.minLon ≤ c.longitude) && decide (c.longitude ≤ b.maxLon)

/-- Modelled from the spec: `QueryBoundingBox` (spec section 4.2): the cells
of the requested resolution whose centroid lies within the inclusive
bounds. -/
def QueryBoundingBox (gs : GridState) (b : BBox) (res : Resolution) :
    List HabitatCell :=
  (gs.map (fun e => e.2)).filter
    (fun c => decide (c.resolution = res) && inBox b c)

/-- Modelled from the spec: `Count(boundingBox, resolution)` (spec
section 4.2). -/
def Count (gs : GridState) (b : BBox) (res : Resolution) : Nat :=
  (QueryBoundingBox gs b res).length

/-- Modelled from the spec: a NowcastResult (spec section 3): species id,
as-of timestamp of the evaluation, count, and the ordered sequence of
(cell_id, score, components, last_observation). -/
structure NowcastResult where
  species_id : String
  as_of : ℚ
  count : Nat
  cells : List (String × ℚ × List ScoreComponent × Option Int)
deriving DecidableEq, Repr

/-- Modelled from the spec: the outcome of `QueryRefined` (spec
section 4.6): a NowcastResult, RejectedTooLarge, or
RefinedDataUnavailable. -/
inductive QueryOutcome
  | success (r : NowcastResult)
  | rejectedTooLarge
  | refinedDataUnavailable
deriving DecidableEq, Repr

/-- Modelled from the spec: `QueryRefined(species_id, boundingBox, minScore,
maxCells)` (spec section 4.6).  Steps: (1) zero refined coverage for the
region yields RefinedDataUnavailable; (2) a candidate count above maxCells
yields RejectedTooLarge without scoring anything; (3) otherwise every
candidate is scored, filtered by minimum score, and returned with
`as_of = now`.  The second component of the result counts the Scoring Engine
invocations (the call-count instrumentation of spec section 8). -/
def QueryRefined (gs : GridState) (p : SpeciesProfile) (b : BBox)
    (minScore : ℚ) (maxCells : Nat) (month : Nat) (now : ℚ) :
    QueryOutcome × Nat :=
  let candidates := QueryBoundingBox gs b .refined
  if candidates.isEmpty then (.refinedDataUnavailable, 0)
  else if maxCells < candidates.length then (.rejectedTooLarge, 0)
  else
    let scored := candidates.map
      (fun c => (c.cell_id, Score p c month, c.last_observation))
    let kept := scored.filter (fun e => decide (minScore ≤ e.2.1.1))
    (.success
      { species_id := p.id, as_of := now, count := kept.length,
        cells := kept.map (fun e => (e.1, e.2.1.1, e.2.1.2, e.2.2)) },
     candidates.length)

/-- Modelled from the spec: the HTTP surface of the refined nowcast query
(spec section 6): status 400 with a human-readable zoom-in message when the
candidate count exceeds the cap, status 503 when refined data is unavailable
for the region, status 200 on success. -/
def httpResponseOf : QueryOutcome → Nat × String
  | .success _ => (200, "")
  | .rejectedTooLarge => (400, "Too many cells in view; zoom in further")
  | .refinedDataUnavailable => (503, "Refined data not available for this region")

/-- The NowcastCell payload record of the frontend (frontend/src/App.tsx,
lines 22-30). -/
structure NowcastCellFE where
  cell_id : String
  latitude : ℚ
  longitude : ℚ
  score : ℚ
  components : List ScoreComponent
  last_observation : String
  canopy_pct_nlcd : Option ℚ
deriving DecidableEq, Repr

/-- The JSON body of a nowcast_refined response as the frontend reads it
(frontend/src/App.tsx): `detail` on an error body (absent or null maps to
none), and `cells` / `as_of` on a success payload. -/
structure NowcastBody where
  detail : Option String
  as_of : String
  cells : List NowcastCellFE
deriving DecidableEq, Repr

/-- The result of `response.json()`: `parseError msg` models the body
failing to parse as JSON, throwing an error whose message is `msg`. -/
inductive BodyResult
  | parseError (msg : String)
  | parsed (data : NowcastBody)
deriving DecidableEq, Repr

/-- An HTTP response as seen by the frontend fetch handler: the status code
and the result of reading the body as JSON. -/
structure HttpResponse where
  status : Nat
  body : BodyResult
deriving DecidableEq, Repr

/-- The React state touched by fetchNowcastRefined (frontend/src/App.tsx):
cells, asOf, error, loading. -/
structure AppState where
  cells : List NowcastCellFE
  asOf : String
  error : String
  loading : Bool
deriving DecidableEq, Repr

/-- `response.ok` of the Fetch API: status in the range 200-299. -/
def respOk (s : Nat) : Bool := decide (200 ≤ s) && decide (s ≤ 299)

/-- The response handling of fetchNowcastRefined (frontend/src/App.tsx,
lines 97-133), as a transformer of the React state for one received
response: loading and error are reset, a 400 reads the body and shows its
detail (defaulting when absent) with the cells cleared, a 503 shows the
fixed not-ready message with the cells cleared, an ok response installs the
payload, any other status — and any exception, such as a body that fails to
parse — lands in the catch block which only sets the error message; finally
loading is cleared. -/
def fetchNowcastRefined (st : AppState) (resp : HttpResponse) : AppState :=
  let st0 := { st with loading := true, error := "" }
  let st1 :=
    if resp.status = 400 then
      match resp.body with
      | .parseError msg => { st0 with error := msg }
      | .parsed data =>
        { st0 with
            error := data.detail.getD ("Too many cells — zoom in further"),
            cells := [] }
    else if resp.status = 503 then
      { st0 with
          error := "300m data not ready — run: python3 -m app.pipelines.habitat_refinement",
          cells := [] }
    else if respOk resp.status then
      match resp.body with
      | .parseError msg => { st0 with error := msg }
      | .parsed payload => { st0 with cells := payload.cells, asOf := payload.as_of }
    else
      { st0 with error := "Failed to load nowcast data" }
  { st1 with loading := false }

/-- patchOpacity of the frontend (frontend/src/App.tsx, line 157):
opacity scales linearly with the score. -/
def patchOpacity (score : ℚ) : ℚ :=
  0.25 + ((score - 0.3) / 0.7) * 0.6

def morelSoilComponent : DeclaredComponent :=
  { name := "soil_temperature_c",
    kind := .tolerance .soil_temperature_c { min := some 10, max := some 18 },
    weight := 2/5 }

def morelPrecipComponent : DeclaredComponent :=
  { name := "precipitation_mm_last_7d",
    kind := .tolerance .precipitation_mm_last_7d { min := some 10, max := some 50 },
    weight := 3/10 }

def morelHostComponent : DeclaredComponent :=
  { name := "host_species", kind := .hostSpecies ["douglas-fir"], weight := 3/10 }

def morelProfile : SpeciesProfile :=
  { id := "morel",
    components := [morelSoilComponent, morelPrecipComponent, morelHostComponent] }

def morelProfileSwapped : SpeciesProfile :=
  { id := "morel",
    components := [morelPrecipComponent, morelSoilComponent, morelHostComponent] }

def demoCell : HabitatCell :=
  { cell_id := "cell-1", latitude := 46, longitude := -122,
    resolution := .coarse,
    soil_temperature_c := some 14,
    precipitation_mm_last_7d := some 5,
    soil_moisture_index := none,
    canopy_density_pct := none,
    host_species_present := ["douglas-fir"],
    prov_soil_temperature_c := none,
    prov_precipitation_mm_last_7d := none,
    prov_soil_moisture_index := none,
    prov_canopy_density_pct := none,
    last_observation := none }

def zeroWeightProfile : SpeciesProfile :=
  { id := "zero-weight",
    components := [{ name := "host_species", kind := .hostSpecies ["western-hemlock"],
                     weight := 0 }] }

def demoFreshRecord : SourceRecord :=
  { expected_interval := 60, last_ingested := 0, failed := false, notes := "" }

def refinedCellA : HabitatCell :=
  { cell_id := "r-1", latitude := 46, longitude := -122,
    resolution := .refined,
    soil_temperature_c := none, precipitation_mm_last_7d := none,
    soil_moisture_index := none, canopy_density_pct := none,
    host_species_present := [],
    prov_soil_temperature_c := none, prov_precipitation_mm_last_7d := none,
    prov_soil_moisture_index := none, prov_canopy_density_pct := none,
    last_observation := none }

def refinedCellB : HabitatCell :=
  { refinedCellA with cell_id := "r-2", latitude := 47 }

def demoBox : BBox := { minLat := 40, maxLat := 50, minLon := -130, maxLon := -110 }

def twoRefinedGrid : GridState := [("r-1", refinedCellA), ("r-2", refinedCellB)]

def moistureReadingA : Reading :=
  { source_id := "A", cell_id := "cell-1",
    field_updates := [{ field := .soil_moisture_index, value := 42, observed_at := 100 }],
    resolution := .coarse }

def moistureReadingB : Reading :=
  { source_id := "B", cell_id := "cell-1",
    field_updates := [{ field := .soil_moisture_index, value := 17, observed_at := 90 }],
    resolution := .coarse }

def mergeStep1 : GridState × FreshState × MergeOutcome :=
  MergeReading [("cell-1", demoCell)] [] moistureReadingA 100 1440

def mergeStep2 : GridState × FreshState × MergeOutcome :=
  MergeReading mergeStep1.1 mergeStep1.2.1 moistureReadingB 200 1440

def cellAfterA : HabitatCell := reconcile ("A") demoCell moistureReadingA.field_updates

def demoFECell : NowcastCellFE :=
  { cell_id := "c-old", latitude := 46, longitude := -122, score := 1,
    components := [], last_observation := "2026-01-01T00:00:00Z",
    canopy_pct_nlcd := none }

def staleAppState : AppState :=
  { cells := [demoFECell], asOf := "2026-01-01T00:00:00Z", error := "",
    loading := false }

def badBody400 : HttpResponse :=
  { status := 400, body := .parseError ("Unexpected end of JSON input") }

def resp503 : HttpResponse :=
  { status := 503, body := .parseError ("Service Unavailable") }

/-- C1: For every species profile with non-negative declared weights and every
habitat cell, Score returns a score with 0 ≤ score ≤ 1, and the score is
unchanged under any permutation of the declared components of the profile. -/
theorem score_unit_interval_and_perm_invariant
    (p q : SpeciesProfile) (cell : HabitatCell) (month : Nat)
    (hw : ∀ c ∈ p.components, 0 ≤ c.weight)
    (hperm : p.components.Perm q.components) :
    0 ≤ (Score p cell month).1 ∧ (Score p cell month).1 ≤ 1 ∧
    (Score p cell month).1 = (Score q cell month).1 := by
  have hpass_nonneg : 0 ≤ passedWeight month cell p := by
    apply List.sum_nonneg
    intro x hx
    obtain ⟨c, hc, rfl⟩ := List.mem_map.mp hx
    by_cases hcp : (evalComponent month cell c).passed
    · simpa [hcp] using hw c hc
    · simp [hcp]
  have htot_nonneg : 0 ≤ totalWeight p := by
    apply List.sum_nonneg
    intro x hx
    obtain ⟨c, hc, rfl⟩ := List.mem_map.mp hx
    exact hw c hc
  have hle : passedWeight month cell p ≤ totalWeight p := by
    apply List.sum_le_sum
    intro c hc
    by_cases hcp : (evalComponent month cell c).passed
    · simp [hcp]
    · simpa [hcp] using hw c hc
  have htots : totalWeight p = totalWeight q := by
    exact (hperm.map (fun c => c.weight)).sum_eq
  have hpasses : passedWeight month cell p = passedWeight month cell q := by
    exact (hperm.map
      (fun c => if (evalComponent month cell c).passed then c.weight else 0)).sum_eq
  have hbounds : 0 ≤ score month cell p ∧ score month cell p ≤ 1 := by
    unfold score
    by_cases h0 : totalWeight p = 0
    · simp [h0]
    · have hpos : 0 < totalWeight p := lt_of_le_of_ne htot_nonneg (Ne.symm h0)
      rw [if_neg h0]
      exact ⟨div_nonneg hpass_nonneg htot_nonneg, (div_le_one hpos).mpr hle⟩
  refine ⟨hbounds.1, hbounds.2, ?_⟩
  show score month cell p = score month cell q
  unfold score
  rw [htots, hpasses]

/-- Witness for C1 at the morel profile, a swapped permutation of it, and the
demo cell. -/
theorem score_unit_interval_witness :
    (∀ c ∈ morelProfile.components, 0 ≤ c.weight) ∧
    morelProfile.components.Perm morelProfileSwapped.components ∧
    (0 ≤ (Score morelProfile demoCell 5).1 ∧ (Score morelProfile demoCell 5).1 ≤ 1 ∧
     (Score morelProfile demoCell 5).1 = (Score morelProfileSwapped demoCell 5).1) := by
  have hw : ∀ c ∈ morelProfile.components, 0 ≤ c.weight := by
    intro c hc
    simp [morelProfile] at hc
    rcases hc with h | h | h <;> subst h <;>
      norm_num [morelSoilComponent, morelPrecipComponent, morelHostComponent]
  have hperm : morelProfile.components.Perm morelProfileSwapped.components :=
    List.Perm.swap morelPrecipComponent morelSoilComponent [morelHostComponent]
  exact ⟨hw, hperm,
    score_unit_interval_and_perm_invariant morelProfile morelProfileSwapped demoCell 5 hw hperm⟩

/-- C2: For every profile with positive total weight and every cell, the score
equals the sum of the weights of the passed components divided by the sum of
all declared weights; for the morel profile on the demo cell the components
pass/fail as [true, false, true] and the score is 0.70. -/
theorem score_formula_and_morel_seventy
    (p : SpeciesProfile) (cell : HabitatCell) (month : Nat)
    (h : 0 < totalWeight p) :
    (Score p cell month).1 = passedWeight month cell p / totalWeight p ∧
    ((Score morelProfile demoCell 5).2.map (fun c => c.passed)) = [true, false, true] ∧
    (Score morelProfile demoCell 5).1 = 7/10 := by
  refine ⟨?_, ?_, ?_⟩
  · show score month cell p = _
    unfold score
    rw [if_neg h.ne']
  · norm_num [Score, morelProfile, morelSoilComponent, morelPrecipComponent,
      morelHostComponent, demoCell, evalComponent, HabitatCell.getField,
      ToleranceRange.contains]
  · norm_num [Score, score, totalWeight, passedWeight, morelProfile,
      morelSoilComponent, morelPrecipComponent, morelHostComponent, demoCell,
      evalComponent, HabitatCell.getField, ToleranceRange.contains]

/-- Witness for C2 at the morel profile and the demo cell. -/
theorem score_formula_witness :
    0 < totalWeight morelProfile ∧
    ((Score morelProfile demoCell 5).1 =
        passedWeight 5 demoCell morelProfile / totalWeight morelProfile ∧
     ((Score morelProfile demoCell 5).2.map (fun c => c.passed)) = [true, false, true] ∧
     (Score morelProfile demoCell 5).1 = 7/10) := by
  have h : 0 < totalWeight morelProfile := by
    norm_num [totalWeight, morelProfile, morelSoilComponent, morelPrecipComponent,
      morelHostComponent]
  exact ⟨h, score_formula_and_morel_seventy morelProfile demoCell 5 h⟩

/-- C8: For every profile whose declared weights sum to zero, Score returns 0
on every cell, and profile loading reports this as a zero-total-weight
ConfigurationError instead of silently accepting the profile. -/
theorem zero_weight_scores_zero_and_config_error (p : SpeciesProfile)
    (h : totalWeight p = 0) :
    (∀ cell month, (Score p cell month).1 = 0) ∧
    (∀ catalog, loadProfile catalog p = .error (.zeroTotalWeight p.id)) := by
  constructor
  · intro cell month
    show score month cell p = 0
    unfold score
    rw [if_pos h]
  · intro catalog
    unfold loadProfile
    rw [if_pos h]

/-- Witness for C8 at a profile with a single component of weight zero. -/
theorem zero_weight_witness :
    totalWeight zeroWeightProfile = 0 ∧
    ((∀ cell month, (Score zeroWeightProfile cell month).1 = 0) ∧
     (∀ catalog, loadProfile catalog zeroWeightProfile =
        .error (.zeroTotalWeight zeroWeightProfile.id))) := by
  have h : totalWeight zeroWeightProfile = 0 := by
    norm_num [totalWeight, zeroWeightProfile]
  exact ⟨h, zero_weight_scores_zero_and_config_error zeroWeightProfile h⟩

/-- C9: patchOpacity of the frontend equals the linear map
0.25 + ((s - 0.3) / 0.7) * 0.6 = 6/7 s - 1/140, is strictly increasing, maps
score 0.3 to opacity 0.25 and score 1.0 to opacity 0.85, and sends every score
in [0.3, 1.0] to an opacity in [0.25, 0.85]. -/
theorem patchOpacity_linear_increasing_bounds (a b s : ℚ)
    (hab : a < b) (hs1 : 3/10 ≤ s) (hs2 : s ≤ 1) :
    patchOpacity (3/10) = 1/4 ∧ patchOpacity 1 = 17/20 ∧
    (∀ x : ℚ, patchOpacity x = 0.25 + ((x - 0.3) / 0.7) * 0.6) ∧
    patchOpacity a < patchOpacity b ∧
    1/4 ≤ patchOpacity s ∧ patchOpacity s ≤ 17/20 := by
  have key : ∀ x : ℚ, patchOpacity x = 6/7 * x - 1/140 := by
    intro x; unfold patchOpacity; ring
  refine ⟨by norm_num [patchOpacity], by norm_num [patchOpacity],
    fun x => rfl, ?_, ?_, ?_⟩
  · rw [key a, key b]; linarith
  · rw [key s]; linarith
  · rw [key s]; linarith

/-- Witness for C9 at scores 0, 1 and 1/2. -/
theorem patchOpacity_witness :
    ((0 : ℚ) < 1 ∧ (3 : ℚ)/10 ≤ 1/2 ∧ (1 : ℚ)/2 ≤ 1) ∧
    (patchOpacity (3/10) = 1/4 ∧ patchOpacity 1 = 17/20 ∧
     (∀ x : ℚ, patchOpacity x = 0.25 + ((x - 0.3) / 0.7) * 0.6) ∧
     patchOpacity 0 < patchOpacity 1 ∧
     1/4 ≤ patchOpacity (1/2) ∧ patchOpacity (1/2) ≤ 17/20) :=
  ⟨⟨by norm_num, by norm_num, by norm_num⟩,
   patchOpacity_linear_increasing_bounds 0 1 (1/2) (by norm_num) (by norm_num)
     (by norm_num)⟩

/-- C5: For every source record without the failed override and with a
non-negative expected interval, StatusOf is determined purely by
age = now - last_ingested: age at most 1.25 times the interval is ok, above
that and at most 2 times the interval is warning, beyond that stale (so with
interval 60m: age 70m is ok, 80m warning, 130m stale); a recorded failure
yields failed regardless of age, and a RecordSuccess brings the record back to
the age-derived status. -/
theorem statusOf_thresholds_and_failed_override (r : SourceRecord) (now : ℚ)
    (h : r.failed = false) (hI : 0 ≤ r.expected_interval) :
    (now - r.last_ingested ≤ 5/4 * r.expected_interval → StatusOf r now = .ok) ∧
    (5/4 * r.expected_interval < now - r.last_ingested →
      now - r.last_ingested ≤ 2 * r.expected_interval → StatusOf r now = .warning) ∧
    (2 * r.expected_interval < now - r.last_ingested → StatusOf r now = .stale) ∧
    (∀ r2 : SourceRecord, ∀ reason : String, ∀ n : ℚ,
      StatusOf (applyFailure r2 reason) n = .failed) ∧
    (∀ r2 : SourceRecord, ∀ ts n : ℚ,
      StatusOf (applySuccess r2 ts) n = ageStatus r2.expected_interval (n - ts)) ∧
    StatusOf demoFreshRecord 70 = .ok ∧
    StatusOf demoFreshRecord 80 = .warning ∧
    StatusOf demoFreshRecord 130 = .stale := by
  have hst : StatusOf r now = ageStatus r.expected_interval (now - r.last_ingested) := by
    unfold StatusOf
    rw [h]
    simp
  refine ⟨?_, ?_, ?_, ?_, ?_, ?_, ?_, ?_⟩
  · intro h1
    rw [hst]
    unfold ageStatus
    rw [if_pos h1]
  · intro h1 h2
    rw [hst]
    unfold ageStatus
    rw [if_neg (not_le.mpr h1), if_pos h2]
  · intro h1
    rw [hst]
    unfold ageStatus
    rw [if_neg (not_le.mpr (by linarith)), if_neg (not_le.mpr h1)]
  · intro r2 reason n
    simp [StatusOf, applyFailure]
  · intro r2 ts n
    simp [StatusOf, applySuccess]
  · norm_num [StatusOf, ageStatus, demoFreshRecord]
  · norm_num [StatusOf, ageStatus, demoFreshRecord]
  · norm_num [StatusOf, ageStatus, demoFreshRecord]

/-- Witness for C5 at the demo freshness record with a 60 minute interval. -/
theorem statusOf_witness :
    (demoFreshRecord.failed = false ∧ 0 ≤ demoFreshRecord.expected_interval) ∧
    ((70 - demoFreshRecord.last_ingested ≤ 5/4 * demoFreshRecord.expected_interval →
        StatusOf demoFreshRecord 70 = .ok) ∧
     (5/4 * demoFreshRecord.expected_interval < 70 - demoFreshRecord.last_ingested →
       70 - demoFreshRecord.last_ingested ≤ 2 * demoFreshRecord.expected_interval →
        StatusOf demoFreshRecord 70 = .warning) ∧
     (2 * demoFreshRecord.expected_interval < 70 - demoFreshRecord.last_ingested →
        StatusOf demoFreshRecord 70 = .stale) ∧
     (∀ r2 : SourceRecord, ∀ reason : String, ∀ n : ℚ,
        StatusOf (applyFailure r2 reason) n = .failed) ∧
     (∀ r2 : SourceRecord, ∀ ts n : ℚ,
        StatusOf (applySuccess r2 ts) n = ageStatus r2.expected_interval (n - ts)) ∧
     StatusOf demoFreshRecord 70 = .ok ∧
     StatusOf demoFreshRecord 80 = .warning ∧
     StatusOf demoFreshRecord 130 = .stale) :=
  ⟨⟨rfl, by norm_num [demoFreshRecord]⟩,
   statusOf_thresholds_and_failed_override demoFreshRecord 70 rfl
     (by norm_num [demoFreshRecord])⟩

/-- C6: Every QueryRefined call whose refined-grid candidate count within the
bounding box exceeds maxCells returns RejectedTooLarge with zero Scoring
Engine invocations, and this outcome maps to HTTP status 400 with a non-empty
human-readable message. -/
theorem queryRefined_rejects_oversized (gs : GridState) (p : SpeciesProfile)
    (b : BBox) (minScore : ℚ) (maxCells : Nat) (month : Nat) (now : ℚ)
    (h : maxCells < Count gs b .refined) :
    QueryRefined gs p b minScore maxCells month now =
      (.rejectedTooLarge, 0) ∧
    (httpResponseOf .rejectedTooLarge).1 = 400 ∧
    (httpResponseOf .rejectedTooLarge).2 ≠ "" := by
  have hne : (QueryBoundingBox gs b Resolution.refined).isEmpty = false := by
    cases hq : QueryBoundingBox gs b Resolution.refined with
    | nil =>
      exfalso
      unfold Count at h
      rw [hq] at h
      simp at h
    | cons a l => rfl
  refine ⟨?_, rfl, by decide⟩
  unfold Count at h
  unfold QueryRefined
  simp only [hne, Bool.false_eq_true, if_false]
  rw [if_pos h]

/-- Witness for C6: two refined cells in the box with maxCells = 1, a
candidate count one above the cap. -/
theorem queryRefined_rejects_witness :
    1 < Count twoRefinedGrid demoBox .refined ∧
    (QueryRefined twoRefinedGrid morelProfile demoBox (3/10) 1 5 0 =
       (.rejectedTooLarge, 0) ∧
     (httpResponseOf .rejectedTooLarge).1 = 400 ∧
     (httpResponseOf .rejectedTooLarge).2 ≠ "") := by
  have h : 1 < Count twoRefinedGrid demoBox .refined := by
    norm_num [Count, QueryBoundingBox, twoRefinedGrid, demoBox, refinedCellA,
      refinedCellB, inBox]
  exact ⟨h, queryRefined_rejects_oversized twoRefinedGrid morelProfile demoBox
    (3/10) 1 5 0 h⟩

/-- C7: Every refined-resolution query over a region where the refined grid
has zero coverage returns RefinedDataUnavailable with zero scoring calls,
mapping to HTTP 503, and this outcome is distinct from every successful
result, in particular from an empty success. -/
theorem queryRefined_unavailable_on_zero_coverage (gs : GridState)
    (p : SpeciesProfile) (b : BBox) (minScore : ℚ) (maxCells : Nat)
    (month : Nat) (now : ℚ)
    (h : Count gs b .refined = 0) :
    QueryRefined gs p b minScore maxCells month now =
      (.refinedDataUnavailable, 0) ∧
    (httpResponseOf .refinedDataUnavailable).1 = 503 ∧
    (∀ res : NowcastResult,
      (QueryOutcome.refinedDataUnavailable : QueryOutcome) ≠ .success res) := by
  have hq : QueryBoundingBox gs b Resolution.refined = [] := by
    unfold Count at h
    exact List.length_eq_zero.mp h
  refine ⟨?_, rfl, by intro res; exact fun hcon => by cases hcon⟩
  unfold QueryRefined
  simp only [hq, List.isEmpty_nil, if_true]

/-- Witness for C7 on an empty grid. -/
theorem queryRefined_unavailable_witness :
    Count [] demoBox .refined = 0 ∧
    (QueryRefined [] morelProfile demoBox (3/10) 200 5 0 =
       (.refinedDataUnavailable, 0) ∧
     (httpResponseOf .refinedDataUnavailable).1 = 503 ∧
     (∀ res : NowcastResult,
       (QueryOutcome.refinedDataUnavailable : QueryOutcome) ≠ .success res)) :=
  ⟨rfl, queryRefined_unavailable_on_zero_coverage [] morelProfile demoBox
    (3/10) 200 5 0 rfl⟩

theorem getProv_setField (c : HabitatCell) (g : FieldName) (v : ℚ)
    (f : FieldName) : (c.setField g v).getProv f = c.getProv f := by
  cases g <;> cases f <;> rfl

theorem getField_setProv (c : HabitatCell) (g : FieldName) (p : Provenance)
    (f : FieldName) : (c.setProv g p).getField f = c.getField f := by
  cases g <;> cases f <;> rfl

theorem getField_setField_of_ne (c : HabitatCell) (g : FieldName) (v : ℚ)
    (f : FieldName) (h : g ≠ f) :
    (c.setField g v).getField f = c.getField f := by
  cases g <;> cases f <;> first | rfl | exact absurd rfl h

theorem getProv_setProv_of_ne (c : HabitatCell) (g : FieldName) (p : Provenance)
    (f : FieldName) (h : g ≠ f) :
    (c.setProv g p).getProv f = c.getProv f := by
  cases g <;> cases f <;> first | rfl | exact absurd rfl h

theorem mergeField_preserves_old_field (src : String) (c : HabitatCell)
    (u : FieldUpdate) (f : FieldName) (p : Provenance)
    (hp : c.getProv f = some p)
    (hu : u.field = f → u.observed_at ≤ p.observed_at) :
    (mergeField src c u).getField f = c.getField f ∧
    (mergeField src c u).getProv f = c.getProv f := by
  unfold mergeField
  by_cases hf : u.field = f
  · subst hf
    rw [hp]
    dsimp only
    rw [if_neg (not_lt.mpr (hu rfl))]
    exact ⟨rfl, hp⟩
  · cases hgp : c.getProv u.field with
    | none =>
      dsimp only
      constructor
      · rw [getField_setProv, getField_setField_of_ne _ _ _ _ hf]
      · rw [getProv_setProv_of_ne _ _ _ _ hf, getProv_setField]
    | some q =>
      dsimp only
      by_cases hlt : q.observed_at < u.observed_at
      · rw [if_pos hlt]
        constructor
        · rw [getField_setProv, getField_setField_of_ne _ _ _ _ hf]
        · rw [getProv_setProv_of_ne _ _ _ _ hf, getProv_setField]
      · rw [if_neg hlt]
        exact ⟨rfl, rfl⟩

theorem foldl_mergeField_preserves_old_field (src : String)
    (updates : List FieldUpdate) :
    ∀ (c : HabitatCell) (f : FieldName) (p : Provenance),
      c.getProv f = some p →
      (∀ u ∈ updates, u.field = f → u.observed_at ≤ p.observed_at) →
      (updates.foldl (mergeField src) c).getField f = c.getField f ∧
      (updates.foldl (mergeField src) c).getProv f = c.getProv f := by
  induction updates with
  | nil => intro c f p hp hall; exact ⟨rfl, rfl⟩
  | cons u rest ih =>
    intro c f p hp hall
    have hstep := mergeField_preserves_old_field src c u f p hp
      (hall u (List.mem_cons_self u rest))
    have hp' : (mergeField src c u).getProv f = some p := hstep.2.trans hp
    have hrest := ih (mergeField src c u) f p hp'
      (fun v hv hvf => hall v (List.mem_cons_of_mem u hv) hvf)
    simp only [List.foldl_cons]
    exact ⟨hrest.1.trans hstep.1, hrest.2.trans hstep.2⟩

theorem getField_recomputeLastObservation (c : HabitatCell) (f : FieldName) :
    (recomputeLastObservation c).getField f = c.getField f := by
  cases f <;> rfl

theorem getProv_recomputeLastObservation (c : HabitatCell) (f : FieldName) :
    (recomputeLastObservation c).getProv f = c.getProv f := by
  cases f <;> rfl

/-- C3: For every field of a cell that already has a provenance timestamp, a
merge whose incoming observed_at values for that field are all older than or
equal to the existing provenance timestamp leaves the value and the provenance
of that field unchanged; and merging the reading of source A for
soil_moisture_index at t=100 followed by the reading of source B for the same
field at t=90 leaves the cell holding the value and provenance of A. -/
theorem merge_older_reading_never_changes_field
    (src : String) (c : HabitatCell) (updates : List FieldUpdate)
    (f : FieldName) (p : Provenance)
    (hp : c.getProv f = some p)
    (hold : ∀ u ∈ updates, u.field = f → u.observed_at ≤ p.observed_at) :
    ((reconcile src c updates).getField f = c.getField f ∧
     (reconcile src c updates).getProv f = some p) ∧
    (assocFind mergeStep2.1 ("cell-1")).map
        (fun cc => (cc.getField .soil_moisture_index, cc.getProv .soil_moisture_index)) =
      some (some 42, some { source := "A", observed_at := 100 }) := by
  have hf := foldl_mergeField_preserves_old_field src updates c f p hp hold
  refine ⟨⟨?_, ?_⟩, by decide⟩
  · unfold reconcile
    rw [getField_recomputeLastObservation]
    exact hf.1
  · unfold reconcile
    rw [getProv_recomputeLastObservation]
    exact hf.2.trans hp

/-- Witness for C3: source B brings an older reading for a field already
provenanced by source A. -/
theorem merge_older_reading_witness :
    (cellAfterA.getProv .soil_moisture_index =
        some { source := "A", observed_at := 100 } ∧
     (∀ u ∈ moistureReadingB.field_updates, u.field = .soil_moisture_index →
        u.observed_at ≤ (100 : Int))) ∧
    (((reconcile ("B") cellAfterA moistureReadingB.field_updates).getField
          .soil_moisture_index = cellAfterA.getField .soil_moisture_index ∧
      (reconcile ("B") cellAfterA moistureReadingB.field_updates).getProv
          .soil_moisture_index = some { source := "A", observed_at := 100 }) ∧
     (assocFind mergeStep2.1 ("cell-1")).map
         (fun cc => (cc.getField .soil_moisture_index, cc.getProv .soil_moisture_index)) =
       some (some 42, some { source := "A", observed_at := 100 })) :=
  ⟨⟨by decide, by decide⟩,
   merge_older_reading_never_changes_field ("B") cellAfterA
     moistureReadingB.field_updates .soil_moisture_index
     { source := "A", observed_at := 100 } (by decide) (by decide)⟩

theorem applySuccess_idem (r : SourceRecord) (ts : ℚ) :
    applySuccess (applySuccess r ts) ts = applySuccess r ts := rfl

theorem applyFailure_idem (r : SourceRecord) (reason : String) :
    applyFailure (applyFailure r reason) reason = applyFailure r reason := rfl

theorem map_f_idem (f : α → α) (hf : ∀ a, f (f a) = f a) (l : List α) :
    (l.map f).map f = l.map f := by
  induction l with
  | nil => rfl
  | cons a l ih => simp only [List.map_cons, hf a, ih]

theorem assocFind_cons_none {α : Type} {a : String × α} {l : List (String × α)}
    {k : String} (h : assocFind (a :: l) k = none) :
    (a.1 == k) = false ∧ assocFind l k = none := by
  by_cases ha : (a.1 == k) = true
  · simp [assocFind, ha] at h
  · rw [Bool.not_eq_true] at ha
    refine ⟨ha, ?_⟩
    simpa [assocFind, ha] using h

theorem assocFind_append_of_none {α : Type} {l : List (String × α)}
    {k : String} (l2 : List (String × α)) (h : assocFind l k = none) :
    assocFind (l ++ l2) k = assocFind l2 k := by
  induction l with
  | nil => rfl
  | cons a l ih =>
    obtain ⟨ha, hl⟩ := assocFind_cons_none h
    simp only [List.cons_append, assocFind, ha, Bool.false_eq_true, if_false]
    exact ih hl

theorem assocFind_single_self {α : Type} (k : String) (v : α) :
    assocFind [(k, v)] k = some v := by
  simp [assocFind]

theorem map_keyed_id_of_none {α : Type} {l : List (String × α)} {k : String}
    (f : String × α → String × α)
    (hout : ∀ e, (e.1 == k) = false → f e = e)
    (h : assocFind l k = none) : l.map f = l := by
  induction l with
  | nil => rfl
  | cons a l ih =>
    obtain ⟨ha, hl⟩ := assocFind_cons_none h
    simp only [List.map_cons, hout a ha, ih hl]

theorem assocFind_map_of_some_exists {α : Type} {l : List (String × α)}
    {k : String} {r0 : α} (f : String × α → String × α)
    (hkey : ∀ e, (f e).1 = e.1)
    (h : assocFind l k = some r0) :
    ∃ w, assocFind (l.map f) k = some w := by
  induction l with
  | nil => simp [assocFind] at h
  | cons a l ih =>
    by_cases ha : (a.1 == k) = true
    · exact ⟨(f a).2, by simp [assocFind, hkey a, ha]⟩
    · rw [Bool.not_eq_true] at ha
      rw [assocFind] at h
      rw [ha] at h
      simp only [Bool.false_eq_true, if_false] at h
      obtain ⟨w, hw⟩ := ih h
      exact ⟨w, by simp only [List.map_cons, assocFind, hkey a, ha,
        Bool.false_eq_true, if_false, hw]⟩

theorem assocFind_map_of_some_const {α : Type} {l : List (String × α)}
    {k : String} {r0 : α} (v : α) (f : String × α → String × α)
    (hin : ∀ e, (e.1 == k) = true → f e = (e.1, v))
    (hout : ∀ e, (e.1 == k) = false → f e = e)
    (h : assocFind l k = some r0) :
    assocFind (l.map f) k = some v := by
  induction l with
  | nil => simp [assocFind] at h
  | cons a l ih =>
    by_cases ha : (a.1 == k) = true
    · simp [assocFind, hin a ha, ha]
    · rw [Bool.not_eq_true] at ha
      rw [assocFind] at h
      rw [ha] at h
      simp only [Bool.false_eq_true, if_false] at h
      simp only [List.map_cons, assocFind, hout a ha, ha, Bool.false_eq_true,
        if_false]
      exact ih h

theorem assocFind_upsert_self {α : Type} (l : List (String × α)) (k : String)
    (v : α) : assocFind (assocUpsert l k v) k = some v := by
  unfold assocUpsert
  cases hfind : assocFind l k with
  | none =>
    rw [assocFind_append_of_none _ hfind]
    exact assocFind_single_self k v
  | some r0 =>
    exact assocFind_map_of_some_const v _
      (fun e he => by simp [he]) (fun e he => by simp [he]) hfind

theorem assocUpsert_idem {α : Type} (l : List (String × α)) (k : String)
    (v : α) : assocUpsert (assocUpsert l k v) k v = assocUpsert l k v := by
  cases hfind : assocFind l k with
  | none =>
    have hinner : assocUpsert l k v = l ++ [(k, v)] := by
      unfold assocUpsert
      rw [hfind]
    have hfind2 : assocFind (l ++ [(k, v)]) k = some v := by
      rw [assocFind_append_of_none _ hfind]
      exact assocFind_single_self k v
    rw [hinner]
    unfold assocUpsert
    rw [hfind2]
    have hmap : ∀ e : String × α, (e.1 == k) = false →
        (if e.1 == k then (e.1, v) else e) = e := by
      intro e he
      simp [he]
    rw [List.map_append, map_keyed_id_of_none _ hmap hfind]
    simp
  | some r0 =>
    have hinner : assocUpsert l k v =
        l.map (fun e => if e.1 == k then (e.1, v) else e) := by
      unfold assocUpsert
      rw [hfind]
    have hfind2 : assocFind
        (l.map (fun e => if e.1 == k then (e.1, v) else e)) k = some v := by
      refine assocFind_map_of_some_const v _ ?_ ?_ hfind
      · intro e he
        simp [he]
      · intro e he
        simp [he]
    rw [hinner]
    unfold assocUpsert
    rw [hfind2]
    apply map_f_idem
    intro e
    by_cases he : (e.1 == k) = true
    · simp [he]
    · rw [Bool.not_eq_true] at he
      simp [he]

theorem recordSuccess_idem (fs : FreshState) (sid : String) (ts interval : ℚ) :
    recordSuccess (recordSuccess fs sid ts interval) sid ts interval =
      recordSuccess fs sid ts interval := by
  cases hfind : assocFind fs sid with
  | none =>
    have hinner : recordSuccess fs sid ts interval = fs ++ [(sid,
        { expected_interval := interval, last_ingested := ts, failed := false,
          notes := "" })] := by
      unfold recordSuccess
      rw [hfind]
    have hfind2 : assocFind (fs ++ [(sid,
        ({ expected_interval := interval, last_ingested := ts, failed := false,
           notes := "" } : SourceRecord))]) sid =
        some { expected_interval := interval, last_ingested := ts,
               failed := false, notes := "" } := by
      rw [assocFind_append_of_none _ hfind]
      exact assocFind_single_self _ _
    rw [hinner]
    unfold recordSuccess
    rw [hfind2]
    have hmap : ∀ e : String × SourceRecord, (e.1 == sid) = false →
        (if e.1 == sid then (e.1, applySuccess e.2 ts) else e) = e := by
      intro e he
      simp [he]
    rw [List.map_append, map_keyed_id_of_none _ hmap hfind]
    simp [applySuccess]
  | some r0 =>
    have hinner : recordSuccess fs sid ts interval =
        fs.map (fun e => if e.1 == sid then (e.1, applySuccess e.2 ts) else e) := by
      unfold recordSuccess
      rw [hfind]
    have hkey : ∀ e : String × SourceRecord,
        ((if e.1 == sid then (e.1, applySuccess e.2 ts) else e).1) = e.1 := by
      intro e
      by_cases he : (e.1 == sid) = true
      · simp [he]
      · rw [Bool.not_eq_true] at he
        simp [he]
    obtain ⟨w, hw⟩ := assocFind_map_of_some_exists
      (fun e => if e.1 == sid then (e.1, applySuccess e.2 ts) else e)
      hkey hfind
    rw [hinner]
    unfold recordSuccess
    rw [hw]
    apply map_f_idem
    intro e
    by_cases he : (e.1 == sid) = true
    · simp [he, applySuccess]
    · rw [Bool.not_eq_true] at he
      simp [he]

theorem recordFailure_idem (fs : FreshState) (sid reason : String) :
    recordFailure (recordFailure fs sid reason) sid reason =
      recordFailure fs sid reason := by
  unfold recordFailure
  apply map_f_idem
  intro e
  by_cases he : (e.1 == sid) = true
  · simp [he, applyFailure]
  · rw [Bool.not_eq_true] at he
    simp [he]

theorem getProv_setProv_self (c : HabitatCell) (f : FieldName) (p : Provenance) :
    (c.setProv f p).getProv f = some p := by
  cases f <;> rfl

theorem getProv_mergeField_self (src : String) (c : HabitatCell)
    (u : FieldUpdate) :
    ∃ q, (mergeField src c u).getProv u.field = some q ∧
      u.observed_at ≤ q.observed_at := by
  unfold mergeField
  cases hp : c.getProv u.field with
  | none =>
    exact ⟨{ source := src, observed_at := u.observed_at },
      getProv_setProv_self _ _ _, le_refl _⟩
  | some p =>
    dsimp only
    by_cases hlt : p.observed_at < u.observed_at
    · rw [if_pos hlt]
      exact ⟨{ source := src, observed_at := u.observed_at },
        getProv_setProv_self _ _ _, le_refl _⟩
    · rw [if_neg hlt]
      exact ⟨p, hp, not_lt.mp hlt⟩

theorem getProv_mergeField_mono (src : String) (c : HabitatCell)
    (u : FieldUpdate) (f : FieldName) (p : Provenance)
    (hp : c.getProv f = some p) :
    ∃ q, (mergeField src c u).getProv f = some q ∧
      p.observed_at ≤ q.observed_at := by
  unfold mergeField
  by_cases hf : u.field = f
  · subst hf
    rw [hp]
    dsimp only
    by_cases hlt : p.observed_at < u.observed_at
    · rw [if_pos hlt]
      exact ⟨{ source := src, observed_at := u.observed_at },
        getProv_setProv_self _ _ _, hlt.le⟩
    · rw [if_neg hlt]
      exact ⟨p, hp, le_refl _⟩
  · cases hgp : c.getProv u.field with
    | none =>
      dsimp only
      refine ⟨p, ?_, le_refl _⟩
      rw [getProv_setProv_of_ne _ _ _ _ hf, getProv_setField]
      exact hp
    | some q0 =>
      dsimp only
      by_cases hlt : q0.observed_at < u.observed_at
      · rw [if_pos hlt]
        refine ⟨p, ?_, le_refl _⟩
        rw [getProv_setProv_of_ne _ _ _ _ hf, getProv_setField]
        exact hp
      · rw [if_neg hlt]
        exact ⟨p, hp, le_refl _⟩

theorem getProv_foldl_mergeField_mono (src : String)
    (updates : List FieldUpdate) :
    ∀ (c : HabitatCell) (f : FieldName) (p : Provenance),
      c.getProv f = some p →
      ∃ q, (updates.foldl (mergeField src) c).getProv f = some q ∧
        p.observed_at ≤ q.observed_at := by
  induction updates with
  | nil => exact fun c f p hp => ⟨p, hp, le_refl _⟩
  | cons u rest ih =>
    intro c f p hp
    obtain ⟨q1, hq1, hle1⟩ := getProv_mergeField_mono src c u f p hp
    obtain ⟨q2, hq2, hle2⟩ := ih (mergeField src c u) f q1 hq1
    exact ⟨q2, by simpa using hq2, hle1.trans hle2⟩

theorem foldl_mergeField_covers (src : String) (updates : List FieldUpdate) :
    ∀ (c : HabitatCell), ∀ u ∈ updates,
      ∃ q, (updates.foldl (mergeField src) c).getProv u.field = some q ∧
        u.observed_at ≤ q.observed_at := by
  induction updates with
  | nil => intro c u hu; cases hu
  | cons u0 rest ih =>
    intro c u hu
    rcases List.mem_cons.mp hu with rfl | hmem
    · obtain ⟨q1, hq1, hle1⟩ := getProv_mergeField_self src c u
      obtain ⟨q2, hq2, hle2⟩ :=
        getProv_foldl_mergeField_mono src rest (mergeField src c u) u.field q1 hq1
      exact ⟨q2, by simpa using hq2, hle1.trans hle2⟩
    · obtain ⟨q, hq, hle⟩ := ih (mergeField src c u0) u hmem
      exact ⟨q, by simpa using hq, hle⟩

theorem mergeField_no_op (src : String) (c : HabitatCell) (u : FieldUpdate)
    (p : Provenance) (hp : c.getProv u.field = some p)
    (h : u.observed_at ≤ p.observed_at) : mergeField src c u = c := by
  unfold mergeField
  rw [hp]
  dsimp only
  rw [if_neg (not_lt.mpr h)]

theorem foldl_mergeField_no_op (src : String) (updates : List FieldUpdate) :
    ∀ (c : HabitatCell),
      (∀ u ∈ updates, ∃ p, c.getProv u.field = some p ∧
        u.observed_at ≤ p.observed_at) →
      updates.foldl (mergeField src) c = c := by
  induction updates with
  | nil => intro c _; rfl
  | cons u rest ih =>
    intro c hall
    obtain ⟨p, hp, hle⟩ := hall u (List.mem_cons_self u rest)
    have hstep : mergeField src c u = c := mergeField_no_op src c u p hp hle
    simp only [List.foldl_cons, hstep]
    exact ih c (fun v hv => hall v (List.mem_cons_of_mem u hv))

theorem recomputeLastObservation_idem (c : HabitatCell) :
    recomputeLastObservation (recomputeLastObservation c) =
      recomputeLastObservation c := rfl

theorem reconcile_idem (src : String) (c : HabitatCell)
    (updates : List FieldUpdate) :
    reconcile src (reconcile src c updates) updates =
      reconcile src c updates := by
  have hcov := foldl_mergeField_covers src updates c
  have hnoop : updates.foldl (mergeField src)
      (recomputeLastObservation (updates.foldl (mergeField src) c)) =
      recomputeLastObservation (updates.foldl (mergeField src) c) := by
    apply foldl_mergeField_no_op
    intro u hu
    obtain ⟨q, hq, hle⟩ := hcov u hu
    exact ⟨q, by rw [getProv_recomputeLastObservation]; exact hq, hle⟩
  show recomputeLastObservation _ = _
  unfold reconcile
  rw [hnoop, recomputeLastObservation_idem]

theorem resolution_setField (c : HabitatCell) (f : FieldName) (v : ℚ) :
    (c.setField f v).resolution = c.resolution := by
  cases f <;> rfl

theorem resolution_setProv (c : HabitatCell) (f : FieldName) (p : Provenance) :
    (c.setProv f p).resolution = c.resolution := by
  cases f <;> rfl

theorem resolution_mergeField (src : String) (c : HabitatCell)
    (u : FieldUpdate) : (mergeField src c u).resolution = c.resolution := by
  unfold mergeField
  cases hp : c.getProv u.field with
  | none =>
    dsimp only
    rw [resolution_setProv, resolution_setField]
  | some p =>
    dsimp only
    by_cases hlt : p.observed_at < u.observed_at
    · rw [if_pos hlt, resolution_setProv, resolution_setField]
    · rw [if_neg hlt]

theorem resolution_reconcile (src : String) (updates : List FieldUpdate) :
    ∀ c : HabitatCell, (reconcile src c updates).resolution = c.resolution := by
  have hfold : ∀ (l : List FieldUpdate) (c : HabitatCell),
      (l.foldl (mergeField src) c).resolution = c.resolution := by
    intro l
    induction l with
    | nil => intro c; rfl
    | cons u rest ih =>
      intro c
      simp only [List.foldl_cons]
      rw [ih (mergeField src c u), resolution_mergeField]
  intro c
  show (recomputeLastObservation _).resolution = _
  unfold recomputeLastObservation
  exact hfold updates c

/-- C4: Re-merging an identical reading (same fields, values, observed_at
timestamps, and ingestion time) is idempotent: after the second MergeReading
the grid state, the freshness state and the outcome all equal what they were
after the first merge. -/
theorem mergeReading_idempotent (gs : GridState) (fs : FreshState)
    (r : Reading) (now interval : ℚ) :
    MergeReading (MergeReading gs fs r now interval).1
      (MergeReading gs fs r now interval).2.1 r now interval =
      MergeReading gs fs r now interval := by
  cases hfind : assocFind gs r.cell_id with
  | none =>
    have hfirst : MergeReading gs fs r now interval =
        (gs, recordFailure fs r.source_id ("unknown cell"),
         .rejected ("unknown cell")) := by
      unfold MergeReading
      rw [hfind]
    rw [hfirst]
    unfold MergeReading
    rw [hfind]
    dsimp only
    rw [recordFailure_idem]
  | some cell =>
    by_cases hres : cell.resolution = r.resolution
    · have hfirst : MergeReading gs fs r now interval =
          (assocUpsert gs r.cell_id (reconcile r.source_id cell r.field_updates),
           recordSuccess fs r.source_id now interval, .merged) := by
        unfold MergeReading
        rw [hfind]
        dsimp only
        rw [if_pos hres]
      have hfind2 : assocFind
          (assocUpsert gs r.cell_id (reconcile r.source_id cell r.field_updates))
          r.cell_id = some (reconcile r.source_id cell r.field_updates) :=
        assocFind_upsert_self _ _ _
      have hres2 : (reconcile r.source_id cell r.field_updates).resolution =
          r.resolution := by
        rw [resolution_reconcile]
        exact hres
      rw [hfirst]
      unfold MergeReading
      rw [hfind2]
      dsimp only
      rw [if_pos hres2, reconcile_idem, assocUpsert_idem, recordSuccess_idem]
    · have hfirst : MergeReading gs fs r now interval =
          (gs, recordFailure fs r.source_id ("mismatched resolution"),
           .rejected ("mismatched resolution")) := by
        unfold MergeReading
        rw [hfind]
        dsimp only
        rw [if_neg hres]
      rw [hfirst]
      unfold MergeReading
      rw [hfind]
      dsimp only
      rw [if_neg hres, recordFailure_idem]

/-- C10 counterexample: a status-400 response whose body fails to parse as
JSON lands in the catch block, which sets only the error message, so the
previously displayed cells are left on the map and the claimed conjunction
fails. -/
theorem fetch400_unparsable_counterexample :
    badBody400.status = 400 ∧
    ¬((fetchNowcastRefined staleAppState badBody400).cells = [] ∧
      (fetchNowcastRefined staleAppState badBody400).error ≠ "") := by
  constructor
  · rfl
  · intro hcon
    have : (fetchNowcastRefined staleAppState badBody400).cells = [demoFECell] := by
      decide
    rw [this] at hcon
    exact absurd hcon.1 (by simp)

/-- C10 amended: for every 503 response, and every 400 response whose body
parses as JSON with a detail field that is absent or a non-empty string,
fetchNowcastRefined sets the displayed cell list to the empty list and sets a
non-empty error message. -/
theorem fetch_clears_cells_amended (st : AppState) (resp : HttpResponse)
    (h : resp.status = 503 ∨
      (resp.status = 400 ∧ ∃ data, resp.body = .parsed data ∧
        ∀ d, data.detail = some d → d ≠ "")) :
    (fetchNowcastRefined st resp).cells = [] ∧
    (fetchNowcastRefined st resp).error ≠ "" := by
  rcases h with h503 | ⟨h400, data, hbody, hdet⟩
  · unfold fetchNowcastRefined
    rw [h503]
    norm_num
    decide
  · unfold fetchNowcastRefined
    rw [h400, hbody]
    norm_num
    cases hd : data.detail with
    | none => simp
    | some d =>
      simp only [Option.getD_some]
      exact hdet d hd

/-- Witness for the amended C10 at a concrete 503 response over a stale
state. -/
theorem fetch_clears_cells_amended_witness :
    (resp503.status = 503 ∨
      (resp503.status = 400 ∧ ∃ data, resp503.body = .parsed data ∧
        ∀ d, data.detail = some d → d ≠ "")) ∧
    ((fetchNowcastRefined staleAppState resp503).cells = [] ∧
     (fetchNowcastRefined staleAppState resp503).error ≠ "") :=
  ⟨Or.inl rfl, fetch_clears_cells_amended staleAppState resp503 (Or.inl rfl)⟩
